import Mathlib

/-!
# Verification of the fmgNICE-Video playback core

Shallow embedding of the media playback engine: the pacing clock
(ffmpeg-decoder, clock_* functions), the lock-free bounded frame ring
buffer (lockfree-ringbuffer.c), the LRU frame cache (frame-cache.c),
the display thread's late-frame policy, the decoder thread's
hardware-transfer failure handling and the pause-ready/resume state
machine.  Machine integers are modelled as Nat/Int with explicit
wrapping where overflow matters; the C double arithmetic of the clock
is modelled with exact rationals, which agrees with the double
computation on every input analysed here.
-/

namespace FmgNice

/-! ## Clock (part_002, clock_reset / clock_get_system_time_for_pts)

The clock stores `system_start` (uint64, milliseconds), `media_start_pts`
(int64, microseconds), diagnostic fields `last_pts`/`last_system`, and
`playback_rate` (double; the program sets it to 1.0 at creation and never
changes it).  `clock_get_system_time_for_pts` computes
`pts_delta = pts - media_start_pts`, then
`system_delta_ms = (double)pts_delta / (1000.0 * playback_rate)` and
returns `system_start + (uint64_t)system_delta_ms`.  The uint64 cast
truncates; for the nonnegative deltas considered in the theorems this is
the floor, modelled by `Int.floor` followed by `Int.toNat`. -/

structure ClockState where
  system_start : Nat
  media_start_pts : Int
  last_pts : Int
  last_system : Nat
  playback_rate : ℚ
  deriving Repr, DecidableEq

/-- Embedding of `clock_get_system_time_for_pts` (part_002 lines 286-302). -/
def clock_get_system_time_for_pts (c : ClockState) (pts : Int) : Nat :=
  let pts_delta : Int := pts - c.media_start_pts
  let system_delta_ms : ℚ := (pts_delta : ℚ) / (1000 * c.playback_rate)
  c.system_start + (⌊system_delta_ms⌋).toNat

/-- Embedding of `clock_reset` (part_002 lines 304-318); `now_ms` is
`os_gettime_ns() / 1000000` at the moment of the call. -/
def clock_reset (now_ms : Nat) (start_pts : Int) (c : ClockState) : ClockState :=
  { c with
    system_start := now_ms
    media_start_pts := start_pts
    last_pts := start_pts
    last_system := now_ms }

/-- Embedding of `clock_update` (part_002 lines 320-328): diagnostics only. -/
def clock_update (now_ms : Nat) (pts : Int) (c : ClockState) : ClockState :=
  { c with last_pts := pts, last_system := now_ms }

/-- C1: with the clock in an epoch established by `reset(start_pts)` at
wall-clock time `T` and playback rate 1.0 (the only rate the program ever
sets), `deadline_for(pts)` is `T + (pts - start_pts) / 1000` milliseconds,
i.e. `T` plus the media delta mapped to wall-clock milliseconds; in
particular after `reset(0)` at time `T`, `deadline_for(33000 µs) = T + 33 ms`
and `deadline_for(66000 µs) = T + 66 ms`. -/
theorem clock_deadline_after_reset (c : ClockState) (T : Nat) (s pts : Int)
    (hrate : c.playback_rate = 1) (hpts : s ≤ pts) :
    clock_get_system_time_for_pts (clock_reset T s c) pts
        = T + (pts - s).toNat / 1000
      ∧ clock_get_system_time_for_pts (clock_reset T 0 c) 33000 = T + 33
      ∧ clock_get_system_time_for_pts (clock_reset T 0 c) 66000 = T + 66 := by
  have key : ∀ p q : Int, q ≤ p →
      clock_get_system_time_for_pts (clock_reset T q c) p
        = T + (p - q).toNat / 1000 := by
    intro p q hqp
    unfold clock_get_system_time_for_pts clock_reset
    simp only [hrate, mul_one]
    have h1000 : ((1000 : ℚ)) = ((1000 : Nat) : ℚ) := by norm_num
    rw [h1000, Rat.floor_intCast_div_natCast]
    have hnn : (0 : Int) ≤ p - q := by omega
    congr 1
    omega
  refine ⟨key pts s hpts, ?_, ?_⟩
  · have h := key 33000 0 (by norm_num)
    simpa using h
  · have h := key 66000 0 (by norm_num)
    simpa using h

/-- Witness for C1 at a concrete input. -/
theorem clock_deadline_after_reset_witness :
    (1000 : Int) ≤ 34500
      ∧ clock_get_system_time_for_pts (clock_reset 500 1000 ⟨0, 0, 0, 0, 1⟩) 34500
          = 500 + ((34500 : Int) - 1000).toNat / 1000 :=
  ⟨by decide,
   (clock_deadline_after_reset ⟨0, 0, 0, 0, 1⟩ 500 1000 34500 rfl (by decide)).1⟩

/-- C2 counterexample: strict monotonicity fails.  In the epoch
`(system_start = 1000, media_start_pts = 0, rate = 1)` the timestamps
`pts1 = 0 < pts2 = 1` (microseconds) both map to deadline `1000` ms,
because the microsecond delta is truncated to whole milliseconds. -/
theorem clock_deadline_not_strict_mono :
    (0 : Int) < 1
      ∧ ¬ (clock_get_system_time_for_pts ⟨1000, 0, 0, 1000, 1⟩ 0
            < clock_get_system_time_for_pts ⟨1000, 0, 0, 1000, 1⟩ 1) := by
  constructor
  · decide
  · have key : ∀ p : Int, clock_get_system_time_for_pts ⟨1000, 0, 0, 1000, 1⟩ p
        = 1000 + (p / 1000).toNat := by
      intro p
      unfold clock_get_system_time_for_pts
      simp only [mul_one, sub_zero]
      have h1000 : ((1000 : ℚ)) = ((1000 : Nat) : ℚ) := by norm_num
      rw [h1000, Rat.floor_intCast_div_natCast]
      norm_num
    rw [key 0, key 1]
    omega

/-- C2 (amended): within a single clock epoch, deadlines are monotone
non-decreasing in the presentation timestamp: for `media_start_pts ≤ pts1 ≤
pts2` and a positive playback rate, `deadline_for(pts1) ≤ deadline_for(pts2)`.
Strictness fails because media microseconds are truncated to wall-clock
milliseconds. -/
theorem clock_deadline_monotone (c : ClockState) (pts1 pts2 : Int)
    (hr : 0 < c.playback_rate) (h12 : pts1 ≤ pts2) :
    clock_get_system_time_for_pts c pts1 ≤ clock_get_system_time_for_pts c pts2 := by
  have hle : ((pts1 - c.media_start_pts : Int) : ℚ) / (1000 * c.playback_rate)
      ≤ ((pts2 - c.media_start_pts : Int) : ℚ) / (1000 * c.playback_rate) := by
    gcongr
  have hf := Int.floor_le_floor hle
  show c.system_start
      + (⌊((pts1 - c.media_start_pts : Int) : ℚ) / (1000 * c.playback_rate)⌋).toNat
    ≤ c.system_start
      + (⌊((pts2 - c.media_start_pts : Int) : ℚ) / (1000 * c.playback_rate)⌋).toNat
  omega

/-- Witness for the amended C2 at a concrete input. -/
theorem clock_deadline_monotone_witness :
    (0 : ℚ) < (⟨1000, 0, 0, 1000, 1⟩ : ClockState).playback_rate
      ∧ clock_get_system_time_for_pts ⟨1000, 0, 0, 1000, 1⟩ 2000
          ≤ clock_get_system_time_for_pts ⟨1000, 0, 0, 1000, 1⟩ 5000 :=
  ⟨by norm_num,
   clock_deadline_monotone ⟨1000, 0, 0, 1000, 1⟩ 2000 5000 (by norm_num) (by decide)⟩

/-! ## Lock-free ring buffer (src/lockfree-ringbuffer.c)

Four cache-padded slots (`RING_BUFFER_SIZE = 4`), each with an atomic
state in {EMPTY, WRITING, READY, READING}, a frame pointer and a
timestamp, plus producer/consumer cursors and four statistics counters.
The single-producer/single-consumer protocol is embedded as sequential
state passing; a successful compare-and-swap is the taken branch of the
state test.  `AVFrame *` pointers are modelled as `Option Nat`
(`none` = NULL). -/

inductive SlotState
  | empty | writing | ready | reading
  deriving Repr, DecidableEq

structure FrameSlot where
  frame : Option Nat
  timestamp : Nat
  state : SlotState
  deriving Repr, DecidableEq

def RING_BUFFER_SIZE : Nat := 4

structure LockfreeRingbuffer where
  write_pos : Nat
  read_pos : Nat
  slots : List FrameSlot
  frames_written : Nat
  frames_read : Nat
  write_failures : Nat
  read_failures : Nat
  deriving Repr, DecidableEq

/-- Embedding of `lockfree_ringbuffer_init`: all slots EMPTY with NULL
frame and zero timestamp, cursors and counters zero. -/
def lockfree_ringbuffer_init : LockfreeRingbuffer :=
  { write_pos := 0
    read_pos := 0
    slots := List.replicate RING_BUFFER_SIZE { frame := none, timestamp := 0, state := .empty }
    frames_written := 0
    frames_read := 0
    write_failures := 0
    read_failures := 0 }

def slotAt (rb : LockfreeRingbuffer) (i : Nat) : FrameSlot :=
  rb.slots.getD i { frame := none, timestamp := 0, state := .empty }

/-- Embedding of `lockfree_ringbuffer_write_begin` (lines 81-103): CAS
EMPTY→WRITING on the slot at the write cursor; on success return the slot
index and advance the cursor by `(write_pos + 1) & (RING_BUFFER_SIZE - 1)`;
on failure increment `write_failures` and change nothing else. -/
def lockfree_ringbuffer_write_begin (rb : LockfreeRingbuffer) :
    Option Nat × LockfreeRingbuffer :=
  let write_pos := rb.write_pos
  -- the C code masks with `& (RING_BUFFER_SIZE - 1)`; as the size is a
  -- power of two this is exactly reduction mod RING_BUFFER_SIZE
  let next_pos := (write_pos + 1) % RING_BUFFER_SIZE
  if (slotAt rb write_pos).state = .empty then
    (some write_pos,
     { rb with
        slots := rb.slots.set write_pos { slotAt rb write_pos with state := .writing }
        write_pos := next_pos })
  else
    (none, { rb with write_failures := rb.write_failures + 1 })

/-- Embedding of `lockfree_ringbuffer_write_commit` (lines 105-120): store
frame and timestamp, release-fence, set state READY, count the write. -/
def lockfree_ringbuffer_write_commit (rb : LockfreeRingbuffer) (slot : Nat)
    (frame : Nat) (timestamp : Nat) : LockfreeRingbuffer :=
  if RING_BUFFER_SIZE ≤ slot then rb
  else
    { rb with
        slots := rb.slots.set slot { frame := some frame, timestamp := timestamp, state := .ready }
        frames_written := rb.frames_written + 1 }

/-- Embedding of `lockfree_ringbuffer_write_abort` (lines 122-128). -/
def lockfree_ringbuffer_write_abort (rb : LockfreeRingbuffer) (slot : Nat) :
    LockfreeRingbuffer :=
  if RING_BUFFER_SIZE ≤ slot then rb
  else
    { rb with slots := rb.slots.set slot { slotAt rb slot with state := .empty } }

/-- Embedding of `lockfree_ringbuffer_read_begin` (lines 130-163): CAS
READY→READING on the slot at the read cursor; on success return
(slot, frame, timestamp), clear the slot payload, advance the cursor and
count the read; on failure increment `read_failures`. -/
def lockfree_ringbuffer_read_begin (rb : LockfreeRingbuffer) :
    Option (Nat × Option Nat × Nat) × LockfreeRingbuffer :=
  let read_pos := rb.read_pos
  -- `& (RING_BUFFER_SIZE - 1)` in the C code; mod of a power of two
  let next_pos := (read_pos + 1) % RING_BUFFER_SIZE
  let s := slotAt rb read_pos
  if s.state = .ready then
    (some (read_pos, s.frame, s.timestamp),
     { rb with
        slots := rb.slots.set read_pos { frame := none, timestamp := 0, state := .reading }
        read_pos := next_pos
        frames_read := rb.frames_read + 1 })
  else
    (none, { rb with read_failures := rb.read_failures + 1 })

/-- Embedding of `lockfree_ringbuffer_read_complete` (lines 165-171). -/
def lockfree_ringbuffer_read_complete (rb : LockfreeRingbuffer) (slot : Nat) :
    LockfreeRingbuffer :=
  if RING_BUFFER_SIZE ≤ slot then rb
  else
    { rb with slots := rb.slots.set slot { slotAt rb slot with state := .empty } }

/-- One producer enqueue: `write_begin` followed by `write_commit` on the
claimed slot (the decode pump's usage). -/
def try_enqueue (rb : LockfreeRingbuffer) (frame : Nat) (timestamp : Nat) :
    Bool × LockfreeRingbuffer :=
  match lockfree_ringbuffer_write_begin rb with
  | (some slot, rb1) => (true, lockfree_ringbuffer_write_commit rb1 slot frame timestamp)
  | (none, rb1) => (false, rb1)

/-- Enqueue a list of (frame, timestamp) pairs in order, collecting each
attempt's success flag. -/
def enqueueList (rb : LockfreeRingbuffer) :
    List (Nat × Nat) → List Bool × LockfreeRingbuffer
  | [] => ([], rb)
  | p :: rest =>
    let r1 := try_enqueue rb p.1 p.2
    let r2 := enqueueList r1.2 rest
    (r1.1 :: r2.1, r2.2)

/-- Dequeue `n` times via `read_begin`, collecting each attempt's result
(`some (frame, timestamp)` on success, `none` when the buffer was empty). -/
def dequeueN (rb : LockfreeRingbuffer) : Nat → List (Option (Option Nat × Nat)) × LockfreeRingbuffer
  | 0 => ([], rb)
  | n + 1 =>
    match lockfree_ringbuffer_read_begin rb with
    | (some (_, f, ts), rb1) =>
      let r := dequeueN rb1 n
      (some (f, ts) :: r.1, r.2)
    | (none, rb1) =>
      let r := dequeueN rb1 n
      (none :: r.1, r.2)

/-- C3: from the freshly initialised buffer of capacity
`RING_BUFFER_SIZE = 4`, four enqueues (`write_begin`/`write_commit`) all
succeed without any intervening dequeue, and the fifth enqueue attempt's
`write_begin` returns failure, increments the write-failure counter and
leaves every slot and the producer cursor (indeed the whole rest of the
buffer state) unchanged. -/
theorem ringbuffer_fifth_enqueue_fails (a b c d : Nat × Nat) :
    (enqueueList lockfree_ringbuffer_init [a, b, c, d]).1 = [true, true, true, true]
      ∧ lockfree_ringbuffer_write_begin (enqueueList lockfree_ringbuffer_init [a, b, c, d]).2
          = (none,
             { (enqueueList lockfree_ringbuffer_init [a, b, c, d]).2 with
                write_failures :=
                  (enqueueList lockfree_ringbuffer_init [a, b, c, d]).2.write_failures + 1 }) := by
  refine ⟨?_, ?_⟩ <;>
    simp [enqueueList, try_enqueue, lockfree_ringbuffer_write_begin,
      lockfree_ringbuffer_write_commit, lockfree_ringbuffer_init, slotAt,
      RING_BUFFER_SIZE]

/-- C4: for any sequence of at most `RING_BUFFER_SIZE` enqueues with
strictly increasing timestamps into the freshly initialised buffer, every
enqueue succeeds and the same number of successive `read_begin` dequeues
returns exactly the enqueued (frame, timestamp) pairs in enqueue order:
strict FIFO. -/
theorem ringbuffer_fifo (l : List (Nat × Nat))
    (hlen : l.length ≤ RING_BUFFER_SIZE)
    (hts : l.Pairwise (fun p q => p.2 < q.2)) :
    (enqueueList lockfree_ringbuffer_init l).1 = List.replicate l.length true
      ∧ (dequeueN (enqueueList lockfree_ringbuffer_init l).2 l.length).1
          = l.map (fun p => some (some p.1, p.2)) := by
  clear hts
  match l with
  | [] | [a] | [a, b] | [a, b, c] | [a, b, c, d] =>
    refine ⟨?_, ?_⟩ <;>
      simp [enqueueList, try_enqueue, lockfree_ringbuffer_write_begin,
        lockfree_ringbuffer_write_commit, lockfree_ringbuffer_init, slotAt,
        dequeueN, lockfree_ringbuffer_read_begin, RING_BUFFER_SIZE]
  | a :: b :: c :: d :: e :: t =>
    exfalso
    simp [RING_BUFFER_SIZE, List.length] at hlen

/-- Witness for C4 at a concrete input. -/
theorem ringbuffer_fifo_witness :
    ([((7 : Nat), (10 : Nat)), (8, 20)].length ≤ RING_BUFFER_SIZE)
      ∧ (dequeueN (enqueueList lockfree_ringbuffer_init [(7, 10), (8, 20)]).2 2).1
          = [some (some 7, 10), some (some 8, 20)] :=
  ⟨by decide,
   (ringbuffer_fifo [(7, 10), (8, 20)] (by decide) (by decide)).2⟩

/-! ## Frame cache (frame-cache.c / frame-cache.h)

`FRAME_CACHE_SIZE = 30` entries, each holding a cloned `AVFrame *`
(`Option Nat`, `none` = NULL), a pts, a reference count (pinning), a
state in {EMPTY, LOADING, READY}, an optional pre-converted BGRA buffer,
and LRU metadata.  `av_frame_clone` and `bmalloc` are external; their
outcomes are passed in through `PutEnv` (`clone_result = none` models a
failed clone; the clone's address is whatever fresh pointer the allocator
returned). -/

inductive CacheState
  | empty | loading | ready
  deriving Repr, DecidableEq, Inhabited

structure CachedFrame where
  frame : Option Nat
  pts : Int
  ref_count : Nat
  state : CacheState
  bgra_data : Option Nat
  width : Nat
  height : Nat
  last_access_time : Nat
  access_count : Nat
  deriving Repr, DecidableEq, Inhabited

def FRAME_CACHE_SIZE : Nat := 30

def UINT64_MAX : Nat := 2 ^ 64 - 1

structure FrameCache where
  entries : List CachedFrame
  current_gen : Nat
  hits : Nat
  misses : Nat
  evictions : Nat
  insertions : Nat
  enabled : Bool
  cache_converted_frames : Bool
  deriving Repr, DecidableEq

/-- The loop body of `find_lru_entry` (frame-cache.c lines 191-214):
scan entries in index order; return the first EMPTY slot immediately;
otherwise remember the READY, unpinned entry with the strictly smallest
`last_access_time` seen so far (`oldest` starts at `UINT64_MAX`,
`lru_idx` at -1, modelled as `none`). -/
def find_lru_loop : List CachedFrame → Nat → Nat → Option Nat → Option Nat
  | [], _, _, lru => lru
  | e :: rest, i, oldest, lru =>
    if e.state = .empty then some i
    else if e.state = .ready ∧ e.ref_count = 0 ∧ e.last_access_time < oldest then
      find_lru_loop rest (i + 1) e.last_access_time (some i)
    else
      find_lru_loop rest (i + 1) oldest lru

/-- Embedding of `find_lru_entry`. -/
def find_lru_entry (c : FrameCache) : Option Nat :=
  find_lru_loop c.entries 0 UINT64_MAX none

/-- An entry `find_lru_entry` may evict: READY and unpinned. -/
def lruCandidate (e : CachedFrame) : Prop :=
  e.state = .ready ∧ e.ref_count = 0

instance (e : CachedFrame) : Decidable (lruCandidate e) := by
  unfold lruCandidate; infer_instance

/-- The metadata bump `frame_cache_get` performs on a hit (lines 226-228):
refresh `last_access_time`, count the access, and pin by incrementing the
reference count. -/
def touch (now : Nat) (e : CachedFrame) : CachedFrame :=
  { e with
      last_access_time := now
      access_count := e.access_count + 1
      ref_count := e.ref_count + 1 }

/-- The scan of `frame_cache_get` (lines 222-233): first READY entry with
matching pts is touched and returned together with its index and the
updated entry list. -/
def frame_cache_get_loop (now : Nat) (pts : Int) :
    List CachedFrame → Option (Nat × CachedFrame × List CachedFrame)
  | [] => none
  | e :: rest =>
    if e.state = .ready ∧ e.pts = pts then
      let e2 := touch now e
      some (0, e2, e2 :: rest)
    else
      match frame_cache_get_loop now pts rest with
      | some (i, f, rest2) => some (i + 1, f, e :: rest2)
      | none => none

/-- Embedding of `frame_cache_get` (lines 216-237): on a hit return the
(pointer to the) touched entry and bump the hit counter; on a miss bump
the miss counter; a disabled cache returns NULL without counting. -/
def frame_cache_get (c : FrameCache) (pts : Int) (now : Nat) :
    Option (Nat × CachedFrame) × FrameCache :=
  if c.enabled = false then (none, c)
  else
    match frame_cache_get_loop now pts c.entries with
    | some (i, e2, entries2) =>
      (some (i, e2), { c with entries := entries2, hits := c.hits + 1 })
    | none => (none, { c with misses := c.misses + 1 })

/-- Environment of one `frame_cache_put` call: the wall-clock reading and
the outcomes of the external allocations. -/
structure PutEnv where
  now : Nat
  clone_result : Option Nat
  bgra_alloc_ok : Bool
  deriving Repr, DecidableEq

/-- The victim slot's content after `frame_cache_put` freed the old frame
and BGRA buffer but failed to clone the caller's frame (lines 259-274):
the slot is left EMPTY with NULL payloads; the remaining metadata fields
are whatever was there before. -/
def put_cleared_entry (e : CachedFrame) : CachedFrame :=
  { e with state := .empty, frame := none, bgra_data := none }

/-- The victim slot's content after a successful `frame_cache_put`
(lines 268-295): the cloned frame, the optional copied BGRA data (only
when the converted-frame cache is enabled, both BGRA arguments are
non-NULL and the `bmalloc` succeeded, in which case width/height are
recorded too), the new pts, a fresh access time, and zeroed access and
reference counts, in state READY. -/
def put_inserted_entry (env : PutEnv) (c : FrameCache) (e : CachedFrame) (pts : Int)
    (bgra_data bgra_linesize : Option Nat) (width height : Nat) (cloned : Nat) :
    CachedFrame :=
  let keepBgra : Bool :=
    c.cache_converted_frames ∧ bgra_data ≠ none ∧ bgra_linesize ≠ none ∧ env.bgra_alloc_ok
  { e with
      state := .ready
      frame := some cloned
      bgra_data := if keepBgra then bgra_data else none
      width := if keepBgra then width else e.width
      height := if keepBgra then height else e.height
      pts := pts
      last_access_time := env.now
      access_count := 0
      ref_count := 0 }

/-- Embedding of `frame_cache_put` (lines 239-300): pick the victim via
`find_lru_entry` (fail if none); mark it LOADING; free its old frame
(counting an eviction when one was present) and BGRA buffer; clone the
caller's frame — on clone failure leave the slot EMPTY and fail;
otherwise optionally copy the converted BGRA data, fill in the metadata
(`ref_count = 0`, fresh access time, pts) and mark the slot READY,
counting an insertion. -/
def frame_cache_put (env : PutEnv) (c : FrameCache) (frame : Option Nat) (pts : Int)
    (bgra_data : Option Nat) (bgra_linesize : Option Nat) (width height : Nat) :
    Bool × FrameCache :=
  if c.enabled = false ∨ frame = none then (false, c)
  else
    match find_lru_entry c with
    | none => (false, c)
    | some slot =>
      let e := c.entries.getD slot default
      -- the slot is CACHE_LOADING between these steps, under the lock;
      -- av_frame_free on a non-NULL victim frame counts an eviction
      let evicted := if e.frame ≠ none then 1 else 0
      match env.clone_result with
      | none =>
        (false,
         { c with
            entries := c.entries.set slot (put_cleared_entry e)
            evictions := c.evictions + evicted })
      | some cloned =>
        (true,
         { c with
            entries := c.entries.set slot
              (put_inserted_entry env c e pts bgra_data bgra_linesize width height cloned)
            evictions := c.evictions + evicted
            insertions := c.insertions + 1 })

/-- Embedding of `frame_cache_release` (lines 335-341). -/
def frame_cache_release (e : CachedFrame) : CachedFrame :=
  { e with ref_count := e.ref_count - 1 }

/-- Specification of the `find_lru_entry` scan over entries none of which
is EMPTY: either no remembered candidate beats the running `oldest` bound
and the carried `lru` is returned, or the result is the position (offset
by the carried base index `i`) of a READY, unpinned entry strictly below
the bound whose access time is minimal among all READY unpinned entries. -/
theorem find_lru_loop_spec (l : List CachedFrame) (i oldest : Nat) (lru : Option Nat)
    (hne : ∀ e ∈ l, e.state ≠ .empty) :
    (find_lru_loop l i oldest lru = lru
        ∧ ∀ e ∈ l, lruCandidate e → oldest ≤ e.last_access_time)
      ∨ (∃ k, ∃ hk : k < l.length,
          lruCandidate (l.get ⟨k, hk⟩)
            ∧ find_lru_loop l i oldest lru = some (i + k)
            ∧ (l.get ⟨k, hk⟩).last_access_time < oldest
            ∧ ∀ m, ∀ hm : m < l.length, lruCandidate (l.get ⟨m, hm⟩) →
                (l.get ⟨k, hk⟩).last_access_time ≤ (l.get ⟨m, hm⟩).last_access_time) := by
  induction l generalizing i oldest lru with
  | nil =>
    left
    exact ⟨rfl, by simp⟩
  | cons e rest ih =>
    have hee : e.state ≠ .empty := hne e (by simp)
    have hner : ∀ x ∈ rest, x.state ≠ .empty := fun x hx => hne x (by simp [hx])
    by_cases hc : e.state = .ready ∧ e.ref_count = 0 ∧ e.last_access_time < oldest
    · have hloop : find_lru_loop (e :: rest) i oldest lru
          = find_lru_loop rest (i + 1) e.last_access_time (some i) := by
        simp only [find_lru_loop]
        rw [if_neg hee, if_pos hc]
      rcases ih (i + 1) e.last_access_time (some i) hner with ⟨heq, hall⟩ | hmin
      · right
        refine ⟨0, by simp, ⟨hc.1, hc.2.1⟩, ?_, ?_, ?_⟩
        · rw [hloop, heq]; simp
        · simpa using hc.2.2
        · intro m hm hcand
          match m with
          | 0 => simp
          | n + 1 =>
            have hn : n < rest.length := by simpa using hm
            have h2 := hall (rest.get ⟨n, hn⟩) (List.get_mem rest n hn) (by simpa using hcand)
            show e.last_access_time ≤ (rest.get ⟨n, hn⟩).last_access_time
            exact h2
      · right
        obtain ⟨k, hk, hcand, heq, hlt, hminim⟩ := hmin
        refine ⟨k + 1, by simpa using Nat.succ_lt_succ hk, by simpa using hcand, ?_, ?_, ?_⟩
        · rw [hloop, heq]; congr 1; omega
        · simp only [List.get_cons_succ]
          omega
        · intro m hm hcand2
          match m with
          | 0 =>
            show (rest.get ⟨k, hk⟩).last_access_time ≤ e.last_access_time
            omega
          | n + 1 =>
            have hn : n < rest.length := by simpa using hm
            simpa using hminim n hn (by simpa using hcand2)
    · have hloop : find_lru_loop (e :: rest) i oldest lru
          = find_lru_loop rest (i + 1) oldest lru := by
        simp only [find_lru_loop]
        rw [if_neg hee, if_neg hc]
      have hemiss : lruCandidate e → oldest ≤ e.last_access_time := by
        intro hcand
        rcases hcand with ⟨h1, h2⟩
        by_contra hlt
        exact hc ⟨h1, h2, by omega⟩
      rcases ih (i + 1) oldest lru hner with ⟨heq, hall⟩ | hmin
      · left
        refine ⟨by rw [hloop, heq], ?_⟩
        intro x hx hcand
        rcases List.mem_cons.1 hx with rfl | hx2
        · exact hemiss hcand
        · exact hall x hx2 hcand
      · right
        obtain ⟨k, hk, hcand, heq, hlt, hminim⟩ := hmin
        refine ⟨k + 1, by simpa using Nat.succ_lt_succ hk, by simpa using hcand, ?_, ?_, ?_⟩
        · rw [hloop, heq]; congr 1; omega
        · simp only [List.get_cons_succ]
          omega
        · intro m hm hcand2
          match m with
          | 0 =>
            have h2 := hemiss (by simpa using hcand2)
            show (rest.get ⟨k, hk⟩).last_access_time ≤ e.last_access_time
            omega
          | n + 1 =>
            have hn : n < rest.length := by simpa using hm
            simpa using hminim n hn (by simpa using hcand2)

/-- The `find_lru_entry` scan only produces in-range indices. -/
theorem find_lru_loop_lt (l : List CachedFrame) (i oldest : Nat) (lru : Option Nat)
    (hlru : ∀ j, lru = some j → j < i) :
    ∀ j, find_lru_loop l i oldest lru = some j → j < i + l.length := by
  induction l generalizing i oldest lru with
  | nil =>
    intro j hj
    have := hlru j hj
    simpa using this
  | cons e rest ih =>
    intro j hj
    unfold find_lru_loop at hj
    by_cases hee : e.state = .empty
    · rw [if_pos hee] at hj
      have : i = j := by injection hj
      simp [← this]
    · rw [if_neg hee] at hj
      by_cases hc : e.state = .ready ∧ e.ref_count = 0 ∧ e.last_access_time < oldest
      · rw [if_pos hc] at hj
        have := ih (i + 1) e.last_access_time (some i)
          (by intro j2 hj2; injection hj2 with h; omega) j hj
        simp only [List.length_cons]
        omega
      · rw [if_neg hc] at hj
        have := ih (i + 1) oldest lru
          (by intro j2 hj2; have := hlru j2 hj2; omega) j hj
        simp only [List.length_cons]
        omega

/-- The `frame_cache_get` scan finds nothing when no entry is READY with
the requested pts. -/
theorem frame_cache_get_loop_none (now : Nat) (pts : Int) (l : List CachedFrame)
    (h : ∀ e ∈ l, ¬ (e.state = .ready ∧ e.pts = pts)) :
    frame_cache_get_loop now pts l = none := by
  induction l with
  | nil => rfl
  | cons e rest ih =>
    have he := h e (by simp)
    have hr : ∀ x ∈ rest, ¬ (x.state = .ready ∧ x.pts = pts) := fun x hx => h x (by simp [hx])
    simp only [frame_cache_get_loop]
    rw [if_neg he, ih hr]

/-- The `frame_cache_get` scan stops at the first READY entry with the
requested pts, touching exactly that entry. -/
theorem frame_cache_get_loop_first (now : Nat) (pts : Int) (l : List CachedFrame)
    (i : Nat) (hi : i < l.length)
    (hmatch : (l.get ⟨i, hi⟩).state = .ready ∧ (l.get ⟨i, hi⟩).pts = pts)
    (hbefore : ∀ j, ∀ hj : j < l.length, j < i →
        ¬ ((l.get ⟨j, hj⟩).state = .ready ∧ (l.get ⟨j, hj⟩).pts = pts)) :
    frame_cache_get_loop now pts l
      = some (i, touch now (l.get ⟨i, hi⟩), l.set i (touch now (l.get ⟨i, hi⟩))) := by
  induction l generalizing i with
  | nil => simp at hi
  | cons e rest ih =>
    match i with
    | 0 =>
      have he : e.state = .ready ∧ e.pts = pts := by simpa using hmatch
      simp only [frame_cache_get_loop]
      rw [if_pos he]
      rfl
    | n + 1 =>
      have he : ¬ (e.state = .ready ∧ e.pts = pts) := by
        have := hbefore 0 (by simp) (by omega)
        simpa using this
      have hn : n < rest.length := by simpa using hi
      have hm2 : (rest.get ⟨n, hn⟩).state = .ready ∧ (rest.get ⟨n, hn⟩).pts = pts := by
        simpa using hmatch
      have hb2 : ∀ j, ∀ hj : j < rest.length, j < n →
          ¬ ((rest.get ⟨j, hj⟩).state = .ready ∧ (rest.get ⟨j, hj⟩).pts = pts) := by
        intro j hj hjn
        have := hbefore (j + 1) (by simpa using Nat.succ_lt_succ hj) (by omega)
        simpa using this
      simp only [frame_cache_get_loop]
      rw [if_neg he, ih n hn hm2 hb2]
      rfl

/-- C5: when every slot of the cache is occupied, `frame_cache_put`
selects as victim exactly a READY entry with reference count 0 whose
last-access time is minimal among all such entries (so a pinned entry,
reference count > 0, is never chosen); evicting an occupied victim
increments the eviction counter; and when no READY unpinned entry exists
at all, `put` fails and leaves the cache — eviction counter included —
completely unchanged. -/
theorem cache_put_lru_eviction (env : PutEnv) (c : FrameCache) (f : Nat) (pts : Int)
    (bgra_data bgra_linesize : Option Nat) (width height : Nat)
    (hen : c.enabled = true)
    (hfull : ∀ e ∈ c.entries, e.state ≠ .empty) :
    (∀ v, find_lru_entry c = some v →
        ∃ hv : v < c.entries.length,
          lruCandidate (c.entries.get ⟨v, hv⟩)
            ∧ ∀ m, ∀ hm : m < c.entries.length, lruCandidate (c.entries.get ⟨m, hm⟩) →
                (c.entries.get ⟨v, hv⟩).last_access_time
                  ≤ (c.entries.get ⟨m, hm⟩).last_access_time)
      ∧ ((∀ e ∈ c.entries, ¬ lruCandidate e) →
          frame_cache_put env c (some f) pts bgra_data bgra_linesize width height
            = (false, c))
      ∧ (∀ v, find_lru_entry c = some v → (c.entries.getD v default).frame ≠ none →
          (frame_cache_put env c (some f) pts bgra_data bgra_linesize width height).2.evictions
            = c.evictions + 1) := by
  refine ⟨?_, ?_, ?_⟩
  · intro v hv
    rcases find_lru_loop_spec c.entries 0 UINT64_MAX none hfull with ⟨heq, _⟩ | hmin
    · rw [find_lru_entry, heq] at hv
      simp at hv
    · obtain ⟨k, hk, hcand, heq, _, hminim⟩ := hmin
      rw [find_lru_entry, heq] at hv
      have hkv : k = v := by
        have := Option.some.inj hv
        omega
      subst hkv
      exact ⟨hk, hcand, hminim⟩
  · intro hnone
    have hfind : find_lru_entry c = none := by
      rcases find_lru_loop_spec c.entries 0 UINT64_MAX none hfull with ⟨heq, _⟩ | hmin
      · rw [find_lru_entry, heq]
      · obtain ⟨k, hk, hcand, _, _, _⟩ := hmin
        exact absurd hcand (hnone _ (List.get_mem c.entries k hk))
    simp [frame_cache_put, hen, hfind]
  · intro v hv hframe
    cases hcl : env.clone_result <;>
      · simp [frame_cache_put, hen, hv, hcl]
        simpa [List.getD_eq_getElem?_getD] using hframe

/-- Witness for C5 at a concrete two-entry cache: the entry with access
time 3 (index 1) is older than the one with access time 5 (index 0). -/
theorem cache_put_lru_eviction_witness :
    (FrameCache.enabled
        ⟨[⟨some 1, 10, 0, .ready, none, 0, 0, 5, 0⟩,
          ⟨some 2, 20, 0, .ready, none, 0, 0, 3, 0⟩], 1, 0, 0, 0, 0, true, false⟩ = true)
      ∧ (∀ e ∈ (FrameCache.entries
            ⟨[⟨some 1, 10, 0, .ready, none, 0, 0, 5, 0⟩,
              ⟨some 2, 20, 0, .ready, none, 0, 0, 3, 0⟩], 1, 0, 0, 0, 0, true, false⟩),
          e.state ≠ .empty)
      ∧ (∀ v, find_lru_entry
            ⟨[⟨some 1, 10, 0, .ready, none, 0, 0, 5, 0⟩,
              ⟨some 2, 20, 0, .ready, none, 0, 0, 3, 0⟩], 1, 0, 0, 0, 0, true, false⟩ = some v →
          ∃ hv : v < (FrameCache.entries
              ⟨[⟨some 1, 10, 0, .ready, none, 0, 0, 5, 0⟩,
                ⟨some 2, 20, 0, .ready, none, 0, 0, 3, 0⟩], 1, 0, 0, 0, 0, true, false⟩).length,
            lruCandidate ((FrameCache.entries
                ⟨[⟨some 1, 10, 0, .ready, none, 0, 0, 5, 0⟩,
                  ⟨some 2, 20, 0, .ready, none, 0, 0, 3, 0⟩], 1, 0, 0, 0, 0, true, false⟩).get ⟨v, hv⟩)
              ∧ ∀ m, ∀ hm : m < (FrameCache.entries
                  ⟨[⟨some 1, 10, 0, .ready, none, 0, 0, 5, 0⟩,
                    ⟨some 2, 20, 0, .ready, none, 0, 0, 3, 0⟩], 1, 0, 0, 0, 0, true, false⟩).length,
                  lruCandidate ((FrameCache.entries
                      ⟨[⟨some 1, 10, 0, .ready, none, 0, 0, 5, 0⟩,
                        ⟨some 2, 20, 0, .ready, none, 0, 0, 3, 0⟩], 1, 0, 0, 0, 0, true, false⟩).get ⟨m, hm⟩) →
                    ((FrameCache.entries
                        ⟨[⟨some 1, 10, 0, .ready, none, 0, 0, 5, 0⟩,
                          ⟨some 2, 20, 0, .ready, none, 0, 0, 3, 0⟩], 1, 0, 0, 0, 0, true, false⟩).get ⟨v, hv⟩).last_access_time
                      ≤ ((FrameCache.entries
                          ⟨[⟨some 1, 10, 0, .ready, none, 0, 0, 5, 0⟩,
                            ⟨some 2, 20, 0, .ready, none, 0, 0, 3, 0⟩], 1, 0, 0, 0, 0, true, false⟩).get ⟨m, hm⟩).last_access_time) :=
  ⟨rfl,
   by decide,
   (cache_put_lru_eviction ⟨100, some 42, true⟩
      ⟨[⟨some 1, 10, 0, .ready, none, 0, 0, 5, 0⟩,
        ⟨some 2, 20, 0, .ready, none, 0, 0, 3, 0⟩], 1, 0, 0, 0, 0, true, false⟩
      7 30 none none 0 0 rfl (by decide)).1⟩

/-- C6: after a successful `frame_cache_put` of `pts` (victim slot `v`,
clone `cl`) into a cache that had no READY entry for `pts`,
`frame_cache_get(pts)` returns exactly the cached entry at `v` — whose
frame is the clone, pinned by the get (`ref_count = 1`) — and increments
the hit counter; `frame_cache_get` for an absent pts `q` returns nothing
and increments the miss counter; the stored frame is the clone result,
never an alias of the caller's frame. -/
theorem cache_get_accounting (env : PutEnv) (c : FrameCache) (f cl : Nat) (pts q : Int)
    (bgra_data bgra_linesize : Option Nat) (width height now : Nat) (v : Nat)
    (hen : c.enabled = true)
    (hfind : find_lru_entry c = some v)
    (hclone : env.clone_result = some cl)
    (hfresh : ∀ e ∈ c.entries, e.state = .ready → e.pts ≠ pts)
    (hq : ∀ e ∈ c.entries, ¬ (e.state = .ready ∧ e.pts = q))
    (hqne : q ≠ pts) :
    ∃ c2 e2,
      frame_cache_put env c (some f) pts bgra_data bgra_linesize width height = (true, c2)
        ∧ frame_cache_get c2 pts now
            = (some (v, e2), { c2 with entries := c2.entries.set v e2, hits := c2.hits + 1 })
        ∧ e2.frame = some cl
        ∧ e2.pts = pts
        ∧ e2.ref_count = 1
        ∧ (cl ≠ f → e2.frame ≠ some f)
        ∧ frame_cache_get c2 q now = (none, { c2 with misses := c2.misses + 1 }) := by
  have hvlt : v < c.entries.length := by
    have h0 : ∀ j, (none : Option Nat) = some j → j < 0 := by simp
    have := find_lru_loop_lt c.entries 0 UINT64_MAX none h0 v
      (by rw [find_lru_entry] at hfind; exact hfind)
    omega
  set E := put_inserted_entry env c (c.entries.getD v default) pts bgra_data bgra_linesize
      width height cl with hEdef
  have hEstate : E.state = .ready := rfl
  have hEpts : E.pts = pts := rfl
  have hEframe : E.frame = some cl := rfl
  have hput : frame_cache_put env c (some f) pts bgra_data bgra_linesize width height
      = (true,
         { c with
            entries := c.entries.set v E
            evictions := c.evictions
              + (if (c.entries.getD v default).frame ≠ none then 1 else 0)
            insertions := c.insertions + 1 }) := by
    rw [hEdef]
    simp [frame_cache_put, hen, hfind, hclone]
  have hlen2 : v < (c.entries.set v E).length := by simpa using hvlt
  have hgetv : (c.entries.set v E).get ⟨v, hlen2⟩ = E := List.get_set_eq hlen2
  refine ⟨_, touch now E, hput, ?_, rfl, rfl, rfl, ?_, ?_⟩
  · have hmatch : ((c.entries.set v E).get ⟨v, hlen2⟩).state = .ready
        ∧ ((c.entries.set v E).get ⟨v, hlen2⟩).pts = pts := by
      rw [hgetv]
      exact ⟨hEstate, hEpts⟩
    have hbefore : ∀ j, ∀ hj : j < (c.entries.set v E).length, j < v →
        ¬ (((c.entries.set v E).get ⟨j, hj⟩).state = .ready
            ∧ ((c.entries.set v E).get ⟨j, hj⟩).pts = pts) := by
      intro j hj hjv
      have hjlt : j < c.entries.length := by simpa using hj
      have hvj : v ≠ j := by omega
      rw [List.get_set_ne hvj]
      rintro ⟨h1, h2⟩
      exact hfresh (c.entries.get ⟨j, hjlt⟩) (List.get_mem c.entries j hjlt) h1 h2
    have hloop := frame_cache_get_loop_first now pts (c.entries.set v E) v hlen2 hmatch hbefore
    rw [hgetv] at hloop
    simp [frame_cache_get, hloop, hen]
  · intro hne h
    have hsome : some cl = some f := by
      have hfr : (touch now E).frame = some cl := rfl
      rw [hfr] at h
      exact h
    exact hne (Option.some.inj hsome)
  · have hnone : frame_cache_get_loop now q (c.entries.set v E) = none := by
      apply frame_cache_get_loop_none
      intro x hx
      rcases List.mem_or_eq_of_mem_set hx with hx2 | rfl
      · exact hq x hx2
      · rintro ⟨_, hp⟩
        exact hqne (hp.symm.trans hEpts)
    simp [frame_cache_get, hnone, hen]

/-- Witness for C6 at a concrete one-entry cache. -/
theorem cache_get_accounting_witness :
    find_lru_entry ⟨[⟨some 1, 5, 0, .ready, none, 0, 0, 3, 0⟩], 1, 0, 0, 0, 0, true, false⟩
        = some 0
      ∧ ∃ c2 e2,
          frame_cache_put ⟨100, some 42, true⟩
              ⟨[⟨some 1, 5, 0, .ready, none, 0, 0, 3, 0⟩], 1, 0, 0, 0, 0, true, false⟩
              (some 7) 20 none none 0 0
            = (true, c2)
            ∧ frame_cache_get c2 20 100
                = (some (0, e2), { c2 with entries := c2.entries.set 0 e2, hits := c2.hits + 1 })
            ∧ e2.frame = some 42
            ∧ e2.pts = 20
            ∧ e2.ref_count = 1
            ∧ ((42 : Nat) ≠ 7 → e2.frame ≠ some 7)
            ∧ frame_cache_get c2 99 100 = (none, { c2 with misses := c2.misses + 1 }) :=
  ⟨by decide,
   cache_get_accounting ⟨100, some 42, true⟩
     ⟨[⟨some 1, 5, 0, .ready, none, 0, 0, 3, 0⟩], 1, 0, 0, 0, 0, true, false⟩
     7 42 20 99 none none 0 0 100 0
     rfl (by decide) rfl (by decide) (by decide) (by decide)⟩

/-- C10: `frame_cache_put` is not atomic on failure: with an occupied
victim slot `v` and a failing frame clone, `put` returns false, yet the
victim's cached frame and pixel buffer are already destroyed and the slot
is left EMPTY, with the eviction counted — a failed put removes a
previously cached entry. -/
theorem cache_put_clone_failure (env : PutEnv) (c : FrameCache) (f : Nat) (pts : Int)
    (bgra_data bgra_linesize : Option Nat) (width height : Nat) (v : Nat)
    (hen : c.enabled = true)
    (hfind : find_lru_entry c = some v)
    (hframe : (c.entries.getD v default).frame ≠ none)
    (hclone : env.clone_result = none) :
    frame_cache_put env c (some f) pts bgra_data bgra_linesize width height
      = (false,
         { c with
            entries := c.entries.set v (put_cleared_entry (c.entries.getD v default))
            evictions := c.evictions + 1 }) := by
  have hframe2 : ¬ (c.entries[v]?.getD default).frame = none := by
    simpa [List.getD_eq_getElem?_getD] using hframe
  simp [frame_cache_put, hen, hfind, hclone, hframe2]

/-- Witness for C10 at a concrete one-entry cache. -/
theorem cache_put_clone_failure_witness :
    ((FrameCache.entries
          ⟨[⟨some 1, 5, 0, .ready, none, 0, 0, 3, 0⟩], 1, 0, 0, 0, 0, true, false⟩).getD 0
        default).frame ≠ none
      ∧ frame_cache_put ⟨100, none, true⟩
          ⟨[⟨some 1, 5, 0, .ready, none, 0, 0, 3, 0⟩], 1, 0, 0, 0, 0, true, false⟩
          (some 7) 20 none none 0 0
        = (false,
           { (⟨[⟨some 1, 5, 0, .ready, none, 0, 0, 3, 0⟩], 1, 0, 0, 0, 0, true, false⟩ : FrameCache) with
              entries :=
                (FrameCache.entries
                    ⟨[⟨some 1, 5, 0, .ready, none, 0, 0, 3, 0⟩], 1, 0, 0, 0, 0, true, false⟩).set 0
                  (put_cleared_entry
                    ((FrameCache.entries
                        ⟨[⟨some 1, 5, 0, .ready, none, 0, 0, 3, 0⟩], 1, 0, 0, 0, 0, true, false⟩).getD 0 default))
              evictions := 0 + 1 }) :=
  ⟨by decide,
   cache_put_clone_failure ⟨100, none, true⟩
     ⟨[⟨some 1, 5, 0, .ready, none, 0, 0, 3, 0⟩], 1, 0, 0, 0, 0, true, false⟩
     7 20 none none 0 0 0
     rfl (by decide) (by decide) rfl⟩

/-! ## Display thread late-frame policy (part_002, display_thread lines 446-533)

After dequeuing a buffered frame, the display thread discards frames
marked invalid by a flush (`pts < 0 || system_time == 0`, lines 459-469),
then compares the frame's precomputed deadline with the current time:
`time_until_display_ms = (int64_t)(display_time - current_time_ms)` on
uint64 operands, scaled to nanoseconds in int64 arithmetic.  More than
500 ms late → drop, count in the performance monitor, never call the
sink (lines 480-504); more than 3 ms early → wait and re-evaluate
(lines 509-533); otherwise emit to the sink callback.  int64 casts and
the (in C undefined) signed overflow are modelled as two's-complement
wrapping. -/

/-- Reinterpret an integer as a 64-bit two's-complement value. -/
def toInt64 (n : Int) : Int := (n + 2 ^ 63) % 2 ^ 64 - 2 ^ 63

theorem toInt64_eq_self (x : Int) (h1 : -(2 ^ 63) ≤ x) (h2 : x < 2 ^ 63) :
    toInt64 x = x := by
  unfold toInt64
  rw [Int.emod_eq_of_lt (by omega) (by omega)]
  omega

inductive DispAction
  | skipInvalid | dropLate | waitEarly | emit
  deriving Repr, DecidableEq

/-- The per-frame decision of the display loop on a dequeued frame. -/
def display_classify (pts : Int) (display_time now_ms : Nat) : DispAction :=
  if pts < 0 ∨ display_time = 0 then .skipInvalid
  else if toInt64 (toInt64 ((display_time : Int) - (now_ms : Int)) * 1000000)
      < -500000000 then .dropLate
  else if toInt64 (toInt64 ((display_time : Int) - (now_ms : Int)) * 1000000)
      > 3000000 then .waitEarly
  else .emit

/-- Observable consumer effects: the performance monitor's
`frames_dropped` counter and the pts values handed to the sink. -/
structure DisplayObs where
  frames_dropped : Nat
  delivered : List Int
  deriving Repr, DecidableEq

/-- One display-loop evaluation of a dequeued frame: a late frame is
dropped and counted (when a performance monitor is attached, line 488)
and the sink callback is not invoked; an on-time frame is delivered;
invalid and early frames leave the observables unchanged. -/
def display_handle_frame (st : DisplayObs) (hasMonitor : Bool) (pts : Int)
    (display_time now_ms : Nat) : DispAction × DisplayObs :=
  match display_classify pts display_time now_ms with
  | .dropLate =>
    (.dropLate,
     { st with
        frames_dropped := if hasMonitor then st.frames_dropped + 1 else st.frames_dropped })
  | .emit => (.emit, { st with delivered := st.delivered ++ [pts] })
  | a => (a, st)

/-- C7: a dequeued valid frame whose precomputed deadline lies more than
500 ms in the past at evaluation time is classified as late, dropped and
counted in the performance monitor, and is never handed to the sink (the
delivered list is unchanged).  The bound `10^12` ms keeps the int64
nanosecond arithmetic of the code away from overflow, far beyond any
realistic clock reading. -/
theorem display_drops_very_late_frames (st : DisplayObs) (pts : Int)
    (display_time now_ms : Nat)
    (hpts : 0 ≤ pts) (hdt : display_time ≠ 0)
    (hlate : (display_time : Int) + 500 < now_ms)
    (hgap : (now_ms : Int) - display_time ≤ 10 ^ 12) :
    display_classify pts display_time now_ms = .dropLate
      ∧ display_handle_frame st true pts display_time now_ms
          = (.dropLate, { st with frames_dropped := st.frames_dropped + 1 })
      ∧ (display_handle_frame st true pts display_time now_ms).2.delivered
          = st.delivered := by
  have hms : toInt64 ((display_time : Int) - (now_ms : Int))
      = (display_time : Int) - (now_ms : Int) := by
    apply toInt64_eq_self <;> omega
  have hns : toInt64 (((display_time : Int) - (now_ms : Int)) * 1000000)
      = ((display_time : Int) - (now_ms : Int)) * 1000000 := by
    apply toInt64_eq_self
    · nlinarith [hgap, hlate]
    · nlinarith [hgap, hlate]
  have hclass : display_classify pts display_time now_ms = .dropLate := by
    unfold display_classify
    rw [if_neg (by push_neg; exact ⟨by omega, hdt⟩), hms, hns,
      if_pos (by nlinarith [hlate])]
  refine ⟨hclass, ?_, ?_⟩ <;> simp [display_handle_frame, hclass]

/-- Witness for C7 at a concrete input: a frame due at 1000 ms evaluated
at 2000 ms is 1000 ms late. -/
theorem display_drops_very_late_frames_witness :
    (0 : Int) ≤ 42
      ∧ display_handle_frame ⟨0, []⟩ true 42 1000 2000
          = (.dropLate, { (⟨0, []⟩ : DisplayObs) with frames_dropped := 0 + 1 }) :=
  ⟨by decide,
   (display_drops_very_late_frames ⟨0, []⟩ 42 1000 2000 (by decide) (by decide)
     (by decide) (by decide)).2.1⟩

/-! ## Hardware-transfer failure handling (part_002, decoder_thread lines 1554-1574)

When `av_hwframe_transfer_data` fails, a function-local counter
`hw_failure_count` is incremented; when it exceeds 5 the decoder sets
`hw_decoding_active = false` (software fallback for the rest of the
session — nothing inside the decode loop ever re-enables it) and resets
the counter; below the threshold the frame is skipped and the loop
continues.  The counter is NOT touched on a successful transfer. -/

structure HwState where
  hw_failure_count : Nat
  hw_decoding_active : Bool
  deriving Repr, DecidableEq

/-- The failure branch, lines 1555-1574. -/
def hw_transfer_failure_step (st : HwState) : HwState :=
  if st.hw_failure_count + 1 > 5 then
    { hw_failure_count := 0, hw_decoding_active := false }
  else
    { st with hw_failure_count := st.hw_failure_count + 1 }

/-- One decode-loop iteration's effect on the hardware-path state:
a transfer is attempted only while the accelerated path is active;
a successful transfer leaves the counter untouched (the code never
resets it on success). -/
def hw_loop_step (st : HwState) (transfer_ok : Bool) : HwState :=
  if st.hw_decoding_active then
    if transfer_ok then st else hw_transfer_failure_step st
  else st

def hw_loop_run (st : HwState) : List Bool → HwState
  | [] => st
  | ok :: rest => hw_loop_run (hw_loop_step st ok) rest

/-- Modelled from the claim's wording, for comparison only: a
*consecutive*-failure counter would be reset to zero by every successful
transfer. -/
def hw_consecutive_step (st : HwState) (transfer_ok : Bool) : HwState :=
  if st.hw_decoding_active then
    if transfer_ok then { st with hw_failure_count := 0 }
    else hw_transfer_failure_step st
  else st

def hw_consecutive_run (st : HwState) : List Bool → HwState
  | [] => st
  | ok :: rest => hw_consecutive_run (hw_consecutive_step st ok) rest

/-- C8 counterexample: the counter is not a consecutive-failure counter.
After one failure followed by one successful transfer the code's counter
still reads 1, not 0; and on the transfer outcome sequence
F,T,F,F,F,F,F — whose longest consecutive failure run is 5, below the
disable threshold — the code disables the accelerated path anyway,
whereas a consecutive-failure counter (reset on success) would leave it
active. -/
theorem hw_failure_counter_not_consecutive :
    (hw_loop_run ⟨0, true⟩ [false, true]).hw_failure_count = 1
      ∧ (hw_loop_run ⟨0, true⟩
          [false, true, false, false, false, false, false]).hw_decoding_active = false
      ∧ (hw_consecutive_run ⟨0, true⟩
          [false, true, false, false, false, false, false]).hw_decoding_active = true := by
  decide

/-- C8 (amended): accelerated-path failures are tracked by a cumulative
failure counter that successful transfers do not reset; when the count
exceeds 5 the accelerated path is disabled and the counter rezeroed,
and nothing in the decode loop re-enables the path afterwards (software
fallback for the remainder of the session); below the threshold a
failure only increments the counter — the frame is skipped and the loop
continues with the path still active. -/
theorem hw_circuit_breaker (st : HwState) (ok : Bool) (l : List Bool)
    (hactive : st.hw_decoding_active = true) :
    (ok = true → hw_loop_step st ok = st)
      ∧ (ok = false → st.hw_failure_count + 1 ≤ 5 →
          hw_loop_step st ok = { st with hw_failure_count := st.hw_failure_count + 1 })
      ∧ (ok = false → st.hw_failure_count + 1 > 5 →
          hw_loop_step st ok = ⟨0, false⟩)
      ∧ (∀ st2 : HwState, st2.hw_decoding_active = false → hw_loop_run st2 l = st2) := by
  refine ⟨?_, ?_, ?_, ?_⟩
  · intro hok
    simp [hw_loop_step, hactive, hok]
  · intro hok hle
    have hnot : ¬ st.hw_failure_count + 1 > 5 := by omega
    simp [hw_loop_step, hw_transfer_failure_step, hactive, hok, hnot]
  · intro hok hgt
    simp [hw_loop_step, hw_transfer_failure_step, hactive, hok, hgt]
  · intro st2 hoff
    induction l with
    | nil => rfl
    | cons ok2 rest ih =>
      simp only [hw_loop_run, hw_loop_step, hoff]
      simpa [hoff] using ih

/-- Witness for the amended C8 at a concrete input: a fifth failure
(counter 4 → 5) keeps the path active, a sixth disables it. -/
theorem hw_circuit_breaker_witness :
    (HwState.hw_decoding_active ⟨4, true⟩ = true)
      ∧ (false = false → (4 : Nat) + 1 ≤ 5 →
          hw_loop_step ⟨4, true⟩ false = { (⟨4, true⟩ : HwState) with hw_failure_count := 4 + 1 }) :=
  ⟨rfl, (hw_circuit_breaker ⟨4, true⟩ false [] rfl).2.1⟩

/-! ## Pause-ready / resume (part_002 lines 2513-2587)

`ffmpeg_decoder_pause_ready` records the state-preservation time and the
playback position, preserves a pending seek, marks the decoder
PAUSED_READY and stops emission while keeping both threads alive.
`ffmpeg_decoder_resume` succeeds only from PAUSED_READY within 10000 ms
of preservation, flipping straight back to PLAYING (restoring a
preserved seek) without touching anything else — no thread restart, no
source reopen; an expired state is demoted to STOPPED and resume
returns false. -/

inductive DecoderState
  | stopped | pausedReady | playing
  deriving Repr, DecidableEq

structure DecoderCtl where
  initialized : Bool
  state : DecoderState
  playing : Bool
  state_preserved_time : Nat
  preserved_playback_position : Int
  frame_pts : Int
  seek_request : Bool
  seek_target : Int
  seek_was_in_progress : Bool
  preserved_seek_position : Int
  deriving Repr, DecidableEq

/-- Embedding of `ffmpeg_decoder_pause_ready` (lines 2513-2541). -/
def ffmpeg_decoder_pause_ready (now_ms : Nat) (d : DecoderCtl) : DecoderCtl :=
  if d.initialized = false then d
  else
    { d with
        state := .pausedReady
        state_preserved_time := now_ms
        preserved_playback_position := d.frame_pts
        seek_was_in_progress := d.seek_request
        preserved_seek_position :=
          if d.seek_request then d.seek_target else d.preserved_seek_position
        playing := false }

/-- Embedding of `ffmpeg_decoder_resume` (lines 2544-2587); the uint64
age test `current_time - state_preserved_time > 10000` is taken on a
clock reading at or after the preservation instant. -/
def ffmpeg_decoder_resume (now_ms : Nat) (d : DecoderCtl) : Bool × DecoderCtl :=
  if d.initialized = false then (false, d)
  else if d.state ≠ .pausedReady then (false, d)
  else if now_ms - d.state_preserved_time > 10000 then
    (false, { d with state := .stopped })
  else
    (true,
     { d with
        state := .playing
        playing := true
        seek_request := if d.seek_was_in_progress then true else d.seek_request
        seek_target :=
          if d.seek_was_in_progress then d.preserved_seek_position else d.seek_target })

/-- C9: after `pause_ready` at time `t0`, a `resume` at time `t` within
the 10-second recency bound succeeds and resumes in place: only the
state flips to PLAYING, emission restarts and a preserved seek is
re-armed — every other field (initialization, positions) is untouched;
past the bound `resume` returns false and demotes the preserved state to
STOPPED; and `resume` on a decoder that is not PAUSED_READY returns
false and changes nothing. -/
theorem decoder_resume_recency (d : DecoderCtl) (t0 t : Nat)
    (hinit : d.initialized = true) (ht : t0 ≤ t) :
    (t - t0 ≤ 10000 →
        ffmpeg_decoder_resume t (ffmpeg_decoder_pause_ready t0 d)
          = (true,
             { ffmpeg_decoder_pause_ready t0 d with
                state := .playing
                playing := true
                seek_request :=
                  if (ffmpeg_decoder_pause_ready t0 d).seek_was_in_progress then true
                  else (ffmpeg_decoder_pause_ready t0 d).seek_request
                seek_target :=
                  if (ffmpeg_decoder_pause_ready t0 d).seek_was_in_progress then
                    (ffmpeg_decoder_pause_ready t0 d).preserved_seek_position
                  else (ffmpeg_decoder_pause_ready t0 d).seek_target }))
      ∧ (t - t0 > 10000 →
          ffmpeg_decoder_resume t (ffmpeg_decoder_pause_ready t0 d)
            = (false, { ffmpeg_decoder_pause_ready t0 d with state := .stopped }))
      ∧ (d.state ≠ .pausedReady → ffmpeg_decoder_resume t d = (false, d)) := by
  have hP : (ffmpeg_decoder_pause_ready t0 d).initialized = true := by
    simp [ffmpeg_decoder_pause_ready, hinit]
  have hPstate : (ffmpeg_decoder_pause_ready t0 d).state = .pausedReady := by
    simp [ffmpeg_decoder_pause_ready, hinit]
  have hPtime : (ffmpeg_decoder_pause_ready t0 d).state_preserved_time = t0 := by
    simp [ffmpeg_decoder_pause_ready, hinit]
  refine ⟨?_, ?_, ?_⟩
  · intro hrecent
    have hcond : ¬ t - (ffmpeg_decoder_pause_ready t0 d).state_preserved_time > 10000 := by
      rw [hPtime]; omega
    unfold ffmpeg_decoder_resume
    rw [if_neg (by rw [hP]; simp), if_neg (by rw [hPstate]; simp), if_neg hcond]
  · intro hexp
    have hcond : t - (ffmpeg_decoder_pause_ready t0 d).state_preserved_time > 10000 := by
      rw [hPtime]; omega
    unfold ffmpeg_decoder_resume
    rw [if_neg (by rw [hP]; simp), if_neg (by rw [hPstate]; simp), if_pos hcond]
  · intro hstate
    unfold ffmpeg_decoder_resume
    rw [if_neg (by rw [hinit]; simp), if_pos hstate]

/-- Witness for C9 at a concrete decoder: paused at 5000 ms, resumed at
12000 ms — 7 seconds later, inside the bound. -/
theorem decoder_resume_recency_witness :
    (5000 : Nat) ≤ 12000
      ∧ (12000 - 5000 ≤ 10000 →
          ffmpeg_decoder_resume 12000
              (ffmpeg_decoder_pause_ready 5000
                ⟨true, .playing, true, 0, 0, 777, false, 0, false, 0⟩)
            = (true,
               { ffmpeg_decoder_pause_ready 5000
                   ⟨true, .playing, true, 0, 0, 777, false, 0, false, 0⟩ with
                  state := .playing
                  playing := true
                  seek_request :=
                    if (ffmpeg_decoder_pause_ready 5000
                        ⟨true, .playing, true, 0, 0, 777, false, 0, false, 0⟩).seek_was_in_progress
                    then true
                    else (ffmpeg_decoder_pause_ready 5000
                        ⟨true, .playing, true, 0, 0, 777, false, 0, false, 0⟩).seek_request
                  seek_target :=
                    if (ffmpeg_decoder_pause_ready 5000
                        ⟨true, .playing, true, 0, 0, 777, false, 0, false, 0⟩).seek_was_in_progress
                    then (ffmpeg_decoder_pause_ready 5000
                        ⟨true, .playing, true, 0, 0, 777, false, 0, false, 0⟩).preserved_seek_position
                    else (ffmpeg_decoder_pause_ready 5000
                        ⟨true, .playing, true, 0, 0, 777, false, 0, false, 0⟩).seek_target })) :=
  ⟨by decide,
   (decoder_resume_recency ⟨true, .playing, true, 0, 0, 777, false, 0, false, 0⟩
     5000 12000 rfl (by decide)).1⟩

end FmgNice
